import Mathlib

/-!
Verification of the query-understanding and result-fusion pipeline of the
indexio-crawler repository: a shallow embedding of the deduplicator/merger
(src/lib/utils/dedup.ts), the ranker (src/lib/nlp/ranking.ts and
src/lib/nlp/embeddings.ts), the local intent classifier
(src/lib/nlp/intent.ts) and the fan-out orchestrator
(src/lib/sources/index.ts with the parallelFetch helper), together with
theorems settling the stated properties of the specification.

Numbers are modelled as rationals (the source uses JS doubles but every
constant and every arithmetic operation involved is exact in ℚ),
timestamps as epoch milliseconds (ℤ) with the current time passed in
explicitly, and the stable `Array.prototype.sort` as a stable insertion
sort on lists.
-/

/-! ## JS string helpers -/

/-- JS word character class `\w` = `[A-Za-z0-9_]`. -/
def isWordChar (c : Char) : Bool :=
  c.isAlphanum || c = '_'

/-- Helper for `jsSplitWs`: walk the characters, collecting the current
token (reversed) and tracking whether we are inside a whitespace run. -/
def splitWsGo : List Char → List Char → Bool → List (List Char)
  | [], cur, inRun => if inRun then [[]] else [cur.reverse]
  | c :: cs, cur, inRun =>
    if c.isWhitespace then
      if inRun then splitWsGo cs [] true
      else cur.reverse :: splitWsGo cs [] true
    else
      splitWsGo cs (c :: cur) false

/-- JS `s.split(/\s+/)`: split on maximal whitespace runs; a leading run
contributes a leading empty string and a trailing run a trailing empty
string, and the empty string splits to `[""]`. -/
def jsSplitWs (s : String) : List String :=
  (splitWsGo s.data [] false).map (fun l => String.mk l)

/-- First-occurrence deduplication, the order produced by
`[...new Set(xs)]` in JS. -/
def jsDedupFirst (l : List String) : List String :=
  l.foldl (fun acc x => if x ∈ acc then acc else acc ++ [x]) []

/-- Token set of a string: lowercase, split on whitespace, as a finite
set (JS `new Set(s.toLowerCase().split(/\s+/))`). -/
def tokenSet (s : String) : Finset String :=
  (jsSplitWs s.toLower).toFinset

/-- Function `jaccardSimilarity` from src/lib/utils/dedup.ts: intersection size
over union size of the two token sets. -/
def jaccardSimilarity (a b : String) : ℚ :=
  ((tokenSet a ∩ tokenSet b).card : ℚ) / ((tokenSet a ∪ tokenSet b).card : ℚ)

/-- Function `normalizeText` from src/lib/utils/dedup.ts: lowercase, collapse
whitespace runs to single spaces, trim. -/
def normalizeText (t : String) : String :=
  String.intercalate " " ((jsSplitWs t.toLower).filter (fun w => w ≠ ""))

/-! ## URL normalization (src/lib/utils/dedup.ts `normalizeUrl`)

The source parses with `new URL(url)` and rebuilds
`hostname-without-www + pathname-without-trailing-slash + search`.  We
model the WHATWG parse for the `scheme://host[:port]/path?search`
shape (no userinfo, fragments dropped); on inputs without an
`http(s)://` scheme the constructor throws and the catch branch returns
the lowercased input. -/

/-- Parse `host`, `pathname` and `search` out of the characters following
`scheme://`.  The hostname is what precedes `/`, `?`, `#` or a port; the
pathname defaults to `/`; the search includes its leading `?` and stops
at `#`. -/
def parseHostPathSearch (rest : List Char) : Option (String × String × String) :=
  let host := rest.takeWhile (fun c => c ≠ '/' && c ≠ '?' && c ≠ '#' && c ≠ ':')
  if host.isEmpty then none
  else
    let r1 := rest.drop host.length
    let r2 : List Char := match r1 with
      | ':' :: t => t.dropWhile (fun c => c.isDigit)
      | _ => r1
    let path := r2.takeWhile (fun c => c ≠ '?' && c ≠ '#')
    let r3 := r2.drop path.length
    let search := match r3 with
      | '?' :: _ => r3.takeWhile (fun c => c ≠ '#')
      | _ => []
    some (String.mk host, (if path.isEmpty then "/" else String.mk path), String.mk search)

/-- Function `normalizeUrl`: strip scheme, lowercase the host, strip a leading
`www.`, strip one trailing slash from the path, keep the query string;
unparseable input falls back to the lowercased raw string. -/
def normalizeUrl (url : String) : String :=
  let lower := url.toLower
  let parsed :=
    if lower.startsWith "https://" then parseHostPathSearch (url.data.drop 8)
    else if lower.startsWith "http://" then parseHostPathSearch (url.data.drop 7)
    else none
  match parsed with
  | none => url.toLower
  | some (host, path, search) =>
    let h := host.toLower
    let h := if h.startsWith "www." then (String.mk (h.data.drop 4)) else h
    let p := if path.endsWith "/" then String.mk (path.data.dropLast) else path
    h ++ p ++ search

/-! ## Data model (src/lib/sources/types.ts) -/

/-- The closed enum of source identifiers. -/
inductive SourceType where
  | wikipedia | wikidata | duckduckgo | googlecse | archive
  | github | stackoverflow | devto | lobsters | npm | pypi
  | hackernews | reddit | news
  | whois | dns | cve | company | sec | username | ipgeo
  | arxiv | pubmed | crossref | worldbank | who | census
  deriving DecidableEq

/-- Result categories. -/
inductive CategoryType where
  | web | code | osint | research | news | all
  deriving DecidableEq

/-- Intent categories (`QueryIntent['type']`). -/
inductive IntentType where
  | general | person | company | domain | tech | security | research
  | ip | username | doi
  deriving DecidableEq

/-- The canonical search-result record (`SearchResult`).  `timestamp` is
modelled as epoch milliseconds; `metadata` and `favicon` carry no
pipeline behavior and are omitted. -/
structure SearchResult where
  id : String
  title : String
  description : String
  url : String
  source : SourceType
  category : CategoryType
  timestamp : Option ℤ := none
  score : Option ℚ := none
  deriving DecidableEq

/-- Classification snapshot (`QueryIntent`). -/
structure QueryIntent where
  type : IntentType
  confidence : ℚ
  entities : List String
  suggestedSources : List SourceType
  deriving DecidableEq

/-! ## Deduplicator / merger (src/lib/utils/dedup.ts) -/

/-- Function `areDuplicates`: identical normalized URLs, or same source with
title Jaccard above 0.8, or identical normalized titles with description
Jaccard above 0.6. -/
def areDuplicates (a b : SearchResult) : Bool :=
  (normalizeUrl a.url = normalizeUrl b.url : Bool)
  || ((a.source = b.source : Bool) && decide (jaccardSimilarity a.title b.title > 4/5))
  || ((normalizeText a.title = normalizeText b.title : Bool)
      && decide (jaccardSimilarity a.description b.description > 3/5))

/-- JS `Array.prototype.findIndex`, with `-1` rendered as `none`. -/
def jsFindIndex (p : α → Bool) : List α → Option ℕ
  | [] => none
  | x :: xs => if p x then some 0 else (jsFindIndex p xs).map (· + 1)

/-- One step of `deduplicateResults`: linear-scan the accepted list for
the first duplicate of the incoming result; accept when none, otherwise
keep whichever of the pair has the higher score (`?? 0`), ties going to
the longer description. -/
def dedupStep (acc : List SearchResult) (r : SearchResult) : List SearchResult :=
  match jsFindIndex (fun e => areDuplicates e r) acc with
  | none => acc ++ [r]
  | some i =>
    let e := acc.getD i r
    let existingScore := e.score.getD 0
    let newScore := r.score.getD 0
    if newScore > existingScore
        || (newScore = existingScore && r.description.length > e.description.length) then
      acc.set i r
    else acc

/-- Function `deduplicateResults`: fold the input through `dedupStep`. -/
def deduplicateResults (results : List SearchResult) : List SearchResult :=
  results.foldl dedupStep []

/-- Stable insertion modelling one step of JS stable `Array.sort`: `x`
goes immediately before the first element it strictly precedes. -/
def insertCmp (cmp : α → α → ℚ) (x : α) : List α → List α
  | [] => [x]
  | y :: ys => if cmp x y < 0 then x :: y :: ys else y :: insertCmp cmp x ys

/-- Stable sort by a JS-style comparator (negative means "first argument
first"). -/
def jsSortBy (cmp : α → α → ℚ) (l : List α) : List α :=
  l.foldl (fun acc x => insertCmp cmp x acc) []

/-- The comparator of `mergeResults`: score descending (`?? 0`), ties by
newer timestamp first when both timestamps are present, otherwise left
where they are (comparator returns 0). -/
def mergeCmp (a b : SearchResult) : ℚ :=
  let scoreA := a.score.getD 0
  let scoreB := b.score.getD 0
  if scoreA ≠ scoreB then scoreB - scoreA
  else
    match a.timestamp, b.timestamp with
    | some ta, some tb => ((tb - ta : ℤ) : ℚ)
    | _, _ => 0

/-- Function `mergeResults`: flatten, deduplicate, sort. -/
def mergeResults (resultsBySource : List (List SearchResult)) : List SearchResult :=
  jsSortBy mergeCmp (deduplicateResults resultsBySource.flatten)

/-! ## Ranker (src/lib/nlp/ranking.ts) -/

/-- Static per-source trust constants (`sourceTrustScores`). -/
def sourceTrustScores : SourceType → ℚ
  | .wikipedia => 95/100 | .wikidata => 90/100 | .duckduckgo => 75/100
  | .googlecse => 90/100 | .archive => 80/100
  | .github => 85/100 | .stackoverflow => 85/100 | .devto => 75/100
  | .lobsters => 70/100 | .npm => 80/100 | .pypi => 80/100
  | .hackernews => 70/100 | .reddit => 60/100 | .news => 70/100
  | .whois => 90/100 | .dns => 90/100 | .cve => 95/100 | .company => 85/100
  | .sec => 95/100 | .username => 70/100 | .ipgeo => 85/100
  | .arxiv => 95/100 | .pubmed => 95/100 | .crossref => 95/100
  | .worldbank => 90/100 | .who => 95/100 | .census => 90/100

/-- Default per-source relevance (`defaultRelevance`). -/
def defaultRelevance : SourceType → ℚ
  | .wikipedia => 5/10 | .wikidata => 5/10 | .duckduckgo => 5/10
  | .googlecse => 5/10 | .archive => 4/10
  | .github => 4/10 | .stackoverflow => 4/10 | .devto => 4/10
  | .lobsters => 4/10 | .npm => 3/10 | .pypi => 3/10
  | .hackernews => 4/10 | .reddit => 4/10 | .news => 4/10
  | .whois => 3/10 | .dns => 3/10 | .cve => 3/10 | .company => 4/10
  | .sec => 3/10 | .username => 3/10 | .ipgeo => 3/10
  | .arxiv => 4/10 | .pubmed => 4/10 | .crossref => 4/10
  | .worldbank => 4/10 | .who => 4/10 | .census => 4/10

/-- Intent-to-source relevance (`intentSourceRelevance`), a partial map:
`none` models a source absent from the intent's record. -/
def intentSourceRelevance : IntentType → SourceType → Option ℚ
  | .general, s =>
    match s with
    | .googlecse => some 1 | .wikipedia => some (95/100) | .duckduckgo => some (90/100)
    | .hackernews => some (70/100) | .reddit => some (60/100) | .wikidata => some (80/100)
    | .archive => some (50/100) | .news => some (60/100) | .devto => some (50/100)
    | .lobsters => some (50/100) | _ => none
  | .tech, s =>
    match s with
    | .github => some 1 | .stackoverflow => some 1 | .npm => some (90/100)
    | .pypi => some (90/100) | .devto => some (85/100) | .hackernews => some (80/100)
    | .lobsters => some (80/100) | .googlecse => some (70/100)
    | .wikipedia => some (60/100) | .reddit => some (70/100) | _ => none
  | .security, s =>
    match s with
    | .cve => some 1 | .ipgeo => some (90/100) | .github => some (80/100)
    | .whois => some (70/100) | .dns => some (70/100) | .hackernews => some (70/100)
    | .reddit => some (60/100) | .googlecse => some (60/100)
    | .archive => some (50/100) | .lobsters => some (60/100) | _ => none
  | .domain, s =>
    match s with
    | .whois => some 1 | .dns => some 1 | .archive => some (90/100)
    | .ipgeo => some (70/100) | .cve => some (50/100) | .googlecse => some (50/100)
    | .company => some (40/100) | .sec => some (30/100) | _ => none
  | .company, s =>
    match s with
    | .company => some 1 | .sec => some 1 | .wikipedia => some (80/100)
    | .googlecse => some (80/100) | .news => some (80/100) | .hackernews => some (70/100)
    | .reddit => some (60/100) | .wikidata => some (70/100)
    | .worldbank => some (50/100) | .archive => some (50/100) | _ => none
  | .person, s =>
    match s with
    | .wikipedia => some 1 | .wikidata => some (90/100) | .username => some (90/100)
    | .googlecse => some (80/100) | .reddit => some (70/100) | .hackernews => some (60/100)
    | .github => some (60/100) | .news => some (70/100) | _ => none
  | .research, s =>
    match s with
    | .arxiv => some 1 | .pubmed => some 1 | .crossref => some 1
    | .worldbank => some (90/100) | .who => some (90/100) | .census => some (90/100)
    | .wikipedia => some (80/100) | .wikidata => some (70/100)
    | .googlecse => some (60/100) | _ => none
  | .ip, s =>
    match s with
    | .ipgeo => some 1 | .whois => some (80/100) | .dns => some (80/100)
    | .cve => some (50/100) | _ => none
  | .username, s =>
    match s with
    | .username => some 1 | .github => some (90/100) | .reddit => some (80/100)
    | .hackernews => some (70/100) | .devto => some (60/100)
    | .googlecse => some (50/100) | _ => none
  | .doi, s =>
    match s with
    | .crossref => some 1 | .arxiv => some (90/100) | .pubmed => some (90/100)
    | .googlecse => some (50/100) | _ => none

/-- JS truthiness default `x || 0.5` applied to an optional score: a
missing score and a zero score both fall back to 0.5. -/
def jsOrHalf (s : Option ℚ) : ℚ :=
  match s with
  | none => 1/2
  | some v => if v = 0 then 1/2 else v

/-- Milliseconds per day. -/
def dayMs : ℤ := 86400000

/-- Function `calculateRelevanceScore`: weighted combination of base score,
source trust, intent-source relevance and intent confidence, plus a
recency boost, clamped above at 1.  `now` is the current epoch-ms
clock (`Date.now()`). -/
def calculateRelevanceScore (now : ℤ) (result : SearchResult) (intent : QueryIntent) : ℚ :=
  let baseScore := jsOrHalf result.score
  let trustScore := let t := sourceTrustScores result.source; if t = 0 then 1/2 else t
  let intentRelevance :=
    (intentSourceRelevance intent.type result.source).getD (defaultRelevance result.source)
  let combinedScore :=
    baseScore * (4/10) + trustScore * (2/10) + intentRelevance * (3/10)
      + intent.confidence * (1/10)
  let recencyBoost : ℚ :=
    match result.timestamp with
    | none => 0
    | some ts =>
      let age := now - ts
      if age < dayMs then 1/10
      else if age < 7 * dayMs then 1/20
      else if age < 30 * dayMs then 1/50
      else 0
  min 1 (combinedScore + recencyBoost)

/-- The comparator `(a, b) => (b.score || 0) - (a.score || 0)` used by
`rankResults` and the re-rankers. -/
def scoreDescCmp (a b : SearchResult) : ℚ :=
  b.score.getD 0 - a.score.getD 0

/-- Function `rankResults`: recompute every score, then sort score-descending. -/
def rankResults (now : ℤ) (results : List SearchResult) (intent : QueryIntent) :
    List SearchResult :=
  jsSortBy scoreDescCmp
    (results.map (fun r => { r with score := some (calculateRelevanceScore now r intent) }))

/-! ## Local similarity re-ranking (src/lib/nlp/embeddings.ts) -/

/-- Does `small` occur as a contiguous substring of `big`
(JS `big.includes(small)`)? -/
def strIncludes (big small : String) : Bool :=
  big.data.tails.any (fun t => small.data.isPrefixOf t)

/-- Function `localSimilarity`: shared-token overlap with an extra half credit
per query term that is a substring of some text term or vice versa,
normalized by the query term count. -/
def localSimilarity (query text : String) : ℚ :=
  let queryTerms := jsSplitWs query.toLower
  let textTerms := jsSplitWs text.toLower
  let matchTotal : ℚ :=
    (queryTerms.map (fun term =>
      (if term ∈ textTerms then (1 : ℚ) else 0)
        + (if textTerms.any (fun tt => strIncludes tt term || strIncludes term tt)
           then (1/2 : ℚ) else 0))).sum
  matchTotal / max (queryTerms.length : ℚ) 1

/-- Function `rerankWithLocalSimilarity`: blend each prior score (`|| 0.5`) with
the lexical similarity at equal weight, then sort score-descending. -/
def rerankWithLocalSimilarity (query : String) (results : List SearchResult) :
    List SearchResult :=
  if results.isEmpty then results
  else
    jsSortBy scoreDescCmp
      (results.map (fun r =>
        let similarity := localSimilarity query (r.title ++ " " ++ r.description)
        { r with score := some ((jsOrHalf r.score) * (1/2) + similarity * (1/2)) }))

/-- The always-available path of `fullRankingPipeline` (no embeddings
API): first-pass intent ranking followed by the local-similarity
re-ranking blend. -/
def fullRankingPipelineLocal (now : ℤ) (query : String) (results : List SearchResult)
    (intent : QueryIntent) : List SearchResult :=
  if results.isEmpty then results
  else rerankWithLocalSimilarity query (rankResults now results intent)

/-- Function `diversifyResults`: greedy single pass keeping at most
`maxPerSource` results per source. -/
def diversifyResults (results : List SearchResult) (maxPerSource : ℕ := 5) :
    List SearchResult :=
  (results.foldl
    (fun (st : List SearchResult × (SourceType → ℕ)) r =>
      let count := st.2 r.source
      if count < maxPerSource then
        (st.1 ++ [r], fun s => if s = r.source then count + 1 else st.2 s)
      else st)
    ([], fun _ => 0)).1

/-! ## Local intent classifier (src/lib/nlp/intent.ts)

The classifier's regex patterns fall into three shapes: anchored
grammars (domain, IPv4/IPv6, capitalized person name), case-insensitive
word-boundary alternations `\b(w1|w2|...)\b`, and the unanchored
`CVE-\d{4}-\d+` search.  Each is embedded as a decision procedure for
the regex's language. -/

/-- ASCII hexadecimal digit (`[0-9a-fA-F]`). -/
def isHexDigitChar (c : Char) : Bool :=
  c.isDigit || ('a' ≤ c && c ≤ 'f') || ('A' ≤ c && c ≤ 'F')

/-- A token of a pattern alternative: a literal run, `\s+`, or `\s*`. -/
inductive PatTok where
  | lit : List Char → PatTok
  | ws1 : PatTok
  | ws0 : PatTok

/-- Match a token sequence at the head of the input, returning the
remainder.  Whitespace tokens munch maximally, which is exact here
because every following literal starts with a non-whitespace char. -/
def matchToks : List PatTok → List Char → Option (List Char)
  | [], cs => some cs
  | .lit w :: ts, cs =>
    if w.isPrefixOf cs then matchToks ts (cs.drop w.length) else none
  | .ws1 :: ts, cs =>
    match cs with
    | c :: rest =>
      if c.isWhitespace then matchToks ts (rest.dropWhile Char.isWhitespace) else none
    | [] => none
  | .ws0 :: ts, cs => matchToks ts (cs.dropWhile Char.isWhitespace)

/-- Does some alternative match at this position, ending at a word
boundary (next char absent or non-word)?  Every alternative used here
starts and ends with a word character. -/
def altHitsAt (alts : List (List PatTok)) (cs : List Char) : Bool :=
  alts.any (fun alt =>
    match matchToks alt cs with
    | some rest =>
      match rest with
      | [] => true
      | c :: _ => !isWordChar c
    | none => false)

/-- Word boundary on the left: start of string or previous char
non-word. -/
def boundaryOk : Option Char → Bool
  | none => true
  | some c => !isWordChar c

/-- Scan every position for a word-boundary alternation hit
(`\b(alt1|alt2|...)\b` as an unanchored `test`). -/
def bSearchGo (alts : List (List PatTok)) : Option Char → List Char → Bool
  | prev, [] => boundaryOk prev && altHitsAt alts []
  | prev, c :: rest =>
    (boundaryOk prev && altHitsAt alts (c :: rest)) || bSearchGo alts (some c) rest

/-- Case-insensitive `\b(...)\b` test: lowercase the query (the
alternatives are written lowercase) and scan. -/
def wordSearchCi (alts : List (List PatTok)) (q : String) : Bool :=
  bSearchGo alts none q.toLower.data

/-- Plain-word alternatives. -/
def wordAlts (ws : List String) : List (List PatTok) :=
  ws.map (fun w => [PatTok.lit w.data])

/-- Pattern `CVE-\d{4}-\d+` attempted at the head of the input
(case-insensitive on the letters), returning the greedy match. -/
def cveAt (cs : List Char) : Option (List Char) :=
  match cs with
  | a :: b :: c :: h :: d1 :: d2 :: d3 :: d4 :: h2 :: rest =>
    if a.toLower = 'c' && b.toLower = 'v' && c.toLower = 'e' && h = '-'
        && d1.isDigit && d2.isDigit && d3.isDigit && d4.isDigit && h2 = '-' then
      let ds := rest.takeWhile Char.isDigit
      if ds.isEmpty then none else some ([a, b, c, h, d1, d2, d3, d4, h2] ++ ds)
    else none
  | _ => none

/-- Leftmost `CVE-\d{4}-\d+` match in the input. -/
def cveSearch : List Char → Option (List Char)
  | [] => none
  | c :: cs =>
    match cveAt (c :: cs) with
    | some m => some m
    | none => cveSearch cs

/-- Embedding of `query.match(/CVE-\d{4}-\d+/i)` reduced to its matched string. -/
def cveMatch (q : String) : Option String :=
  (cveSearch q.data).map (fun l => String.mk l)

/-- A DNS label per `[a-zA-Z0-9](?:[a-zA-Z0-9-]{0,61}[a-zA-Z0-9])?`. -/
def isDnsLabel (cs : List Char) : Bool :=
  match cs with
  | [] => false
  | [c] => c.isAlphanum
  | c :: rest =>
    c.isAlphanum && ((c :: rest).getLast (by simp)).isAlphanum
      && (rest.dropLast.all (fun d => d.isAlphanum || d = '-'))
      && (c :: rest).length ≤ 63

/-- A TLD-shaped part per `[a-zA-Z]{2,}`. -/
def isTldPart (cs : List Char) : Bool :=
  cs.length ≥ 2 && cs.all Char.isAlpha

/-- The anchored domain pattern
`^[a-zA-Z0-9](?:[a-zA-Z0-9-]{0,61}[a-zA-Z0-9])?(?:\.[a-zA-Z]{2,})+$`:
a label followed by one or more dot-separated alphabetic parts. -/
def domainPat1 (q : String) : Bool :=
  match q.data.splitOn '.' with
  | [] => false
  | lab :: rest => !rest.isEmpty && isDnsLabel lab && rest.all isTldPart

/-- The TLD-suffix pattern
`\.(com|net|org|io|dev|app|co|ai|xyz|info|biz|gov|edu)$` (`/i`). -/
def domainPat2 (q : String) : Bool :=
  [".com", ".net", ".org", ".io", ".dev", ".app", ".co", ".ai", ".xyz",
   ".info", ".biz", ".gov", ".edu"].any (fun suf => q.toLower.endsWith suf)

/-- One dotted-quad octet per `25[0-5]|2[0-4][0-9]|[01]?[0-9][0-9]?`. -/
def ipv4Octet (cs : List Char) : Bool :=
  cs.all Char.isDigit &&
    match cs with
    | [_] => true
    | [_, _] => true
    | [a, b, c] =>
      a = '0' || a = '1' || (a = '2' && (b ≤ '4' || (b = '5' && c ≤ '5')))
    | _ => false

/-- The anchored IPv4 literal pattern. -/
def isIPv4 (q : String) : Bool :=
  let parts := q.data.splitOn '.'
  parts.length = 4 && parts.all ipv4Octet

/-- The anchored full-form IPv6 literal pattern
`^(?:[0-9a-fA-F]{1,4}:){7}[0-9a-fA-F]{1,4}$`. -/
def isIPv6 (q : String) : Bool :=
  let parts := q.data.splitOn ':'
  parts.length = 8 && parts.all (fun p =>
    1 ≤ p.length && p.length ≤ 4 && p.all isHexDigitChar)

/-- Modelled from the spec: `isIPAddress` from `@/lib/utils` is not in
the source snapshot (only its callers are); the spec defines it as the
IPv4-or-IPv6 syntactic match, the same grammars the classifier's own
`ip` patterns spell out. -/
def isIPAddress (q : String) : Bool :=
  isIPv4 q || isIPv6 q

/-- Modelled from the spec: `isDomain` from `@/lib/utils` is not in the
source snapshot; the spec defines it as the domain-name label/TLD
syntactic match, the grammar of the classifier's own anchored domain
pattern. -/
def isDomain (q : String) : Bool :=
  domainPat1 q

/-- The anchored capitalized-name pattern `^[A-Z][a-z]+\s+[A-Z][a-z]+$`
(case-sensitive). -/
def personPat1 (q : String) : Bool :=
  match q.data with
  | [] => false
  | c :: rest =>
    if c.isUpper then
      let l1 := rest.takeWhile Char.isLower
      let r1 := rest.drop l1.length
      if l1.isEmpty then false
      else
        let wsp := r1.takeWhile Char.isWhitespace
        let r2 := r1.drop wsp.length
        if wsp.isEmpty then false
        else
          match r2 with
          | [] => false
          | d :: rest2 =>
            if d.isUpper then
              let l2 := rest2.takeWhile Char.isLower
              !l2.isEmpty && (rest2.drop l2.length).isEmpty
            else false
    else false

/-- Pattern `\b(cve|vulnerability|exploit|malware|attack|breach|hack)\b` (`/i`). -/
def securityPat1 (q : String) : Bool :=
  wordSearchCi (wordAlts ["cve", "vulnerability", "exploit", "malware",
    "attack", "breach", "hack"]) q

/-- Pattern `\b(security|pentest|penetration|bug\s*bounty)\b` (`/i`). -/
def securityPat2 (q : String) : Bool :=
  wordSearchCi (wordAlts ["security", "pentest", "penetration"]
    ++ [[PatTok.lit "bug".data, PatTok.ws0, PatTok.lit "bounty".data]]) q

/-- Pattern `CVE-\d{4}-\d+` (`/i`) as a boolean test. -/
def securityPat3 (q : String) : Bool :=
  (cveMatch q).isSome

/-- Pattern `\b(company|corporation|corp|inc|llc|ltd|gmbh|plc)\b` (`/i`). -/
def companyPat1 (q : String) : Bool :=
  wordSearchCi (wordAlts ["company", "corporation", "corp", "inc", "llc",
    "ltd", "gmbh", "plc"]) q

/-- Pattern `\b(stock|ticker|sec|filing|investor|quarterly)\b` (`/i`). -/
def companyPat2 (q : String) : Bool :=
  wordSearchCi (wordAlts ["stock", "ticker", "sec", "filing", "investor",
    "quarterly"]) q

/-- Pattern `\b(founded|ceo|revenue|valuation|acquisition)\b` (`/i`). -/
def companyPat3 (q : String) : Bool :=
  wordSearchCi (wordAlts ["founded", "ceo", "revenue", "valuation",
    "acquisition"]) q

/-- Pattern `\b(who\s+is|biography|born|died|age\s+of)\b` (`/i`). -/
def personPat2 (q : String) : Bool :=
  wordSearchCi ([[PatTok.lit "who".data, PatTok.ws1, PatTok.lit "is".data]]
    ++ wordAlts ["biography", "born", "died"]
    ++ [[PatTok.lit "age".data, PatTok.ws1, PatTok.lit "of".data]]) q

/-- Pattern `\b(founder|ceo|president|director|author)\b` (`/i`). -/
def personPat3 (q : String) : Bool :=
  wordSearchCi (wordAlts ["founder", "ceo", "president", "director",
    "author"]) q

/-- Pattern `\b(programming|code|coding|developer|software|api|sdk)\b` (`/i`). -/
def techPat1 (q : String) : Bool :=
  wordSearchCi (wordAlts ["programming", "code", "coding", "developer",
    "software", "api", "sdk"]) q

/-- Pattern `\b(javascript|typescript|python|rust|golang|react|vue|angular)\b` (`/i`). -/
def techPat2 (q : String) : Bool :=
  wordSearchCi (wordAlts ["javascript", "typescript", "python", "rust",
    "golang", "react", "vue", "angular"]) q

/-- Pattern `\b(npm|pip|package|library|framework|tutorial|docs)\b` (`/i`). -/
def techPat3 (q : String) : Bool :=
  wordSearchCi (wordAlts ["npm", "pip", "package", "library", "framework",
    "tutorial", "docs"]) q

/-- Pattern `\b(github|stackoverflow|documentation)\b` (`/i`). -/
def techPat4 (q : String) : Bool :=
  wordSearchCi (wordAlts ["github", "stackoverflow", "documentation"]) q

/-- Pattern `\b(research|paper|study|journal|academic|scientific)\b` (`/i`). -/
def researchPat1 (q : String) : Bool :=
  wordSearchCi (wordAlts ["research", "paper", "study", "journal",
    "academic", "scientific"]) q

/-- Pattern `\b(arxiv|pubmed|doi|citation|thesis|dissertation)\b` (`/i`). -/
def researchPat2 (q : String) : Bool :=
  wordSearchCi (wordAlts ["arxiv", "pubmed", "doi", "citation", "thesis",
    "dissertation"]) q

/-- Pattern `\b(hypothesis|methodology|findings|results)\b` (`/i`). -/
def researchPat3 (q : String) : Bool :=
  wordSearchCi (wordAlts ["hypothesis", "methodology", "findings",
    "results"]) q

/-- Table `intentPatterns` in declaration order (JS `Object.entries` iterates
string keys in insertion order). -/
def intentPatterns : List (IntentType × List (String → Bool)) :=
  [(.domain, [domainPat1, domainPat2]),
   (.ip, [isIPv4, isIPv6]),
   (.security, [securityPat1, securityPat2, securityPat3]),
   (.company, [companyPat1, companyPat2, companyPat3]),
   (.person, [personPat1, personPat2, personPat3]),
   (.tech, [techPat1, techPat2, techPat3, techPat4]),
   (.research, [researchPat1, researchPat2, researchPat3])]

/-- The classifier's local `intentSourceMap` record; `username` and
`doi` have no entry in it. -/
def intentSourceMap : IntentType → Option (List SourceType)
  | .domain => some [.whois, .archive, .cve]
  | .ip => some [.whois]
  | .security => some [.cve, .github, .hackernews]
  | .company => some [.company, .wikipedia, .hackernews, .reddit]
  | .person => some [.wikipedia, .reddit, .hackernews]
  | .tech => some [.github, .stackoverflow, .npm, .pypi, .devto, .hackernews]
  | .research => some [.arxiv, .wikipedia]
  | .general => some [.wikipedia, .duckduckgo, .hackernews, .reddit, .github]
  | .username => none
  | .doi => none

/-- Access to a key the source addresses directly
(`intentSourceMap.domain` etc., statically present). -/
def intentSourceMapGet (t : IntentType) : List SourceType :=
  (intentSourceMap t).getD []

/-- The `scores` record of the keyword fallback: per category, the
number of matching patterns over the pattern count, kept only when
positive, in insertion order. -/
def intentScores (q : String) : List (IntentType × ℚ) :=
  intentPatterns.filterMap (fun p =>
    let n := (p.2.filter (fun pat => pat q)).length
    if n > 0 then some (p.1, (n : ℚ) / (p.2.length : ℚ)) else none)

/-- Function `sortedIntents`: the scores sorted descending by JS stable sort. -/
def sortedIntents (q : String) : List (IntentType × ℚ) :=
  jsSortBy (fun a b => b.2 - a.2) (intentScores q)

/-- The `general` fallback value of the classifier. -/
def generalIntentResult : QueryIntent :=
  ⟨.general, 1/2, [], intentSourceMapGet .general⟩

/-- Function `classifyIntentLocal`: domain check, IP check, CVE check, then the
keyword-scoring fallback with threshold 0.3. -/
def classifyIntentLocal (q : String) : QueryIntent :=
  if isDomain q then
    ⟨.domain, 95/100, [q], intentSourceMapGet .domain⟩
  else if isIPAddress q then
    ⟨.domain, 95/100, [q], intentSourceMapGet .ip⟩
  else
    match cveMatch q with
    | some m => ⟨.security, 98/100, [m.toUpper], intentSourceMapGet .security⟩
    | none =>
      match sortedIntents q with
      | (t, sc) :: _ =>
        if sc > 3/10 then
          ⟨t, min (sc + 3/10) (9/10), [],
            match intentSourceMap t with
            | some l => l
            | none => intentSourceMapGet .general⟩
        else generalIntentResult
      | [] => generalIntentResult

/-! ## Fan-out orchestrator (src/lib/sources/index.ts, parallelFetch)

Adapter invocations are modelled by an abstract outcome per source
name: a timeout, a thrown error, or a returned list.  The fetcher
closure built in `searchAllSources` catches a thrown error and returns
`[]`; `parallelFetch` converts a timeout into a `data: null` outcome.
Source identifiers are raw strings here because the HTTP layer passes
unvalidated strings through (`sourcesParam.split(',') as SourceType[]`). -/

/-- The registry keys of `sourceAdapters`, in object-literal insertion
order. -/
def sourceAdapterKeys : List String :=
  ["wikipedia", "wikidata", "duckduckgo", "googlecse", "archive",
   "github", "stackoverflow", "devto", "lobsters", "npm", "pypi",
   "hackernews", "reddit", "news",
   "whois", "dns", "cve", "company", "sec", "username", "ipgeo",
   "arxiv", "pubmed", "crossref", "worldbank", "who", "census"]

/-- Lookup `sourceAdapters[s]?.config.enabled`: every adapter module in the
snapshot declares `enabled: true`, and an unknown key yields
`undefined` (`none`). -/
def adapterEnabled (s : String) : Option Bool :=
  if s ∈ sourceAdapterKeys then some true else none

/-- Table `categorySourceMap` from src/lib/sources/types.ts (`all` maps to
`[]`; `getSourcesForCategory` special-cases it). -/
def categorySourceMapS : CategoryType → List String
  | .web => ["googlecse", "wikipedia", "wikidata", "duckduckgo", "archive"]
  | .code => ["github", "stackoverflow", "devto", "npm", "pypi", "lobsters"]
  | .osint => ["whois", "dns", "cve", "company", "sec", "username", "ipgeo", "archive"]
  | .research => ["arxiv", "pubmed", "crossref", "worldbank", "who", "census",
      "wikipedia", "wikidata"]
  | .news => ["hackernews", "reddit", "news", "devto", "lobsters"]
  | .all => []

/-- Function `getSourcesForCategory`: all registry keys for `all`, else the
category map. -/
def getSourcesForCategoryS (c : CategoryType) : List String :=
  if c = .all then sourceAdapterKeys else categorySourceMapS c

/-- The source-resolution prefix of `searchAllSources`: explicit list
when present and non-empty, else all keys when `all` is among the
categories, else the deduplicated union of the category maps; then
filter to enabled adapters (unknown names have no adapter and are
dropped by the `?.` chain). -/
def resolveSourcesToQuery (sources : Option (List String))
    (categories : List CategoryType) : List String :=
  let fromCategories :=
    if categories.contains .all then sourceAdapterKeys
    else jsDedupFirst (categories.flatMap getSourcesForCategoryS)
  let base :=
    match sources with
    | some l => if l.length > 0 then l else fromCategories
    | none => fromCategories
  base.filter (fun s => (adapterEnabled s).getD false)

/-- Abstract outcome of one adapter invocation. -/
inductive AdapterOutcome where
  | timeout
  | throws
  | returns (rs : List SearchResult)
  deriving DecidableEq

/-- Record `FetchResult` of parallelFetch, reduced to the fields the
aggregation reads. -/
structure FetchOutcome where
  data : Option (List SearchResult)
  isError : Bool
  source : String
  deriving DecidableEq

/-- Function `parallelFetch` composed with the fetcher closures of
`searchAllSources`: a timeout is caught by `parallelFetch` (`data:
null`); a thrown adapter error is caught inside the fetcher (`[]`); a
return passes through.  No outcome rejects the batch. -/
def parallelFetchModel (fetchers : List (String × AdapterOutcome)) : List FetchOutcome :=
  fetchers.map (fun f =>
    match f.2 with
    | .timeout => ⟨none, true, f.1⟩
    | .throws => ⟨some [], false, f.1⟩
    | .returns rs => ⟨some rs, false, f.1⟩)

/-- The record returned by `searchAllSources` (timing omitted). -/
structure SearchAllResult where
  results : List SearchResult
  sourcesQueried : ℕ
  sourcesSucceeded : ℕ
  deriving DecidableEq

/-- Function `searchAllSources`: resolve the source set, fetch in parallel, keep
the non-empty lists (counting them as successes), merge, and slice to
`limit * 5`. -/
def searchAllModel (sources : Option (List String)) (categories : List CategoryType)
    (limit : ℕ) (outcomes : String → AdapterOutcome) : SearchAllResult :=
  let sourcesToQuery := resolveSourcesToQuery sources categories
  let fetchResults := parallelFetchModel (sourcesToQuery.map (fun s => (s, outcomes s)))
  let allResults := fetchResults.filterMap (fun fr =>
    match fr.data with
    | some l => if l.length > 0 then some l else none
    | none => none)
  { results := (mergeResults allResults).take (limit * 5),
    sourcesQueried := sourcesToQuery.length,
    sourcesSucceeded := allResults.length }

/-- Outcome kind of the GET /api/search handler. -/
inductive RouteOutcome where
  | badRequest
  | ok (resp : SearchAllResult)
  deriving DecidableEq

/-- The GET /api/search handler's gate and delegation: the only
bad-request rejection is a missing or (after trim) empty `q`; the
post-search ranking/diversification steps cannot change which
constructor is produced and are omitted from the response payload. -/
def routeGETModel (q : Option String) (sources : Option (List String))
    (categories : List CategoryType) (limit : ℕ)
    (outcomes : String → AdapterOutcome) : RouteOutcome :=
  match q with
  | none => .badRequest
  | some s =>
    if s.trim = "" then .badRequest
    else .ok (searchAllModel sources categories limit outcomes)

/-! ## Concrete fixtures used by counterexamples and witnesses -/

/-- Fixture: title with nine distinct tokens. -/
def cexA : SearchResult :=
  { id := "a", title := "a b c d e f g h i", description := "",
    url := "https://a.com/p1", source := .github, category := .code,
    score := some (1/2) }

/-- Fixture: ten-token title, Jaccard 9/10 with `cexA`'s title, higher
score, and the same normalized URL as `cexC4C`. -/
def cexB : SearchResult :=
  { id := "b", title := "a b c d e f g h i j", description := "",
    url := "https://a.com/p2", source := .github, category := .code,
    score := some (3/5) }

/-- Fixture: nine-token title with Jaccard 8/10 with `cexA`'s title and
9/10 with `cexB`'s. -/
def cexC3C : SearchResult :=
  { id := "c3", title := "b c d e f g h i j", description := "",
    url := "https://a.com/p3", source := .github, category := .code,
    score := some (2/5) }

/-- Fixture: token-disjoint title, same normalized URL as `cexB`. -/
def cexC4C : SearchResult :=
  { id := "c4", title := "x y", description := "",
    url := "https://a.com/p2", source := .github, category := .code,
    score := some (3/10) }

/-- Fixture: equal-score result with no timestamp. -/
def cexNoTs : SearchResult :=
  { id := "t1", title := "alpha", description := "",
    url := "https://a.com/q1", source := .github, category := .code,
    score := some (1/2) }

/-- Fixture: equal-score result with a timestamp. -/
def cexWithTs : SearchResult :=
  { id := "t2", title := "beta", description := "",
    url := "https://b.com/q2", source := .wikipedia, category := .web,
    timestamp := some 100, score := some (1/2) }

/-- Fixture: intent value used by the ranking counterexamples. -/
def cexIntent : QueryIntent :=
  ⟨.general, 1/2, [], []⟩

/-- Fixture: result whose title and description both equal the
one-letter query, driving `localSimilarity` to 3/2. -/
def cexSimResult : SearchResult :=
  { id := "s", title := "a", description := "a",
    url := "https://x.com/", source := .wikipedia, category := .web }

/-- Fixture: a result carrying a present-but-zero score. -/
def cexZeroScore : SearchResult :=
  { id := "z", title := "zero", description := "",
    url := "https://z.com/", source := .reddit, category := .news,
    score := some 0 }

/-! ## Spec-side scoring formulas (for the refinement claims) -/

/-- The spec's additive recency bonus: +0.1 under a day old, +0.05
under a week, +0.02 under thirty days, else nothing. -/
def recencyBonusSpec (now : ℤ) (ts : Option ℤ) : ℚ :=
  match ts with
  | none => 0
  | some t =>
    if now - t < dayMs then 1/10
    else if now - t < 7 * dayMs then 1/20
    else if now - t < 30 * dayMs then 1/50
    else 0

/-- The composite-score formula exactly as claimed: weighted sum with
`baseScore` defaulting to 0.5 only when the source-reported score is
absent, plus the recency bonus, clamped at 1. -/
def relevanceScoreClaimC7 (now : ℤ) (result : SearchResult) (intent : QueryIntent) : ℚ :=
  min 1 ((4/10) * result.score.getD (1/2)
    + (2/10) * sourceTrustScores result.source
    + (3/10) * (intentSourceRelevance intent.type result.source).getD
        (defaultRelevance result.source)
    + (1/10) * intent.confidence
    + recencyBonusSpec now result.timestamp)

/-- The amended composite-score formula: identical except that a
present-but-zero score also falls back to 0.5 (JS `||` truthiness). -/
def relevanceScoreAmendedC7 (now : ℤ) (result : SearchResult) (intent : QueryIntent) : ℚ :=
  min 1 ((4/10) * jsOrHalf result.score
    + (2/10) * sourceTrustScores result.source
    + (3/10) * (intentSourceRelevance intent.type result.source).getD
        (defaultRelevance result.source)
    + (1/10) * intent.confidence
    + recencyBonusSpec now result.timestamp)

/-! ## Lemmas about the stable sort -/

lemma insertCmp_perm (cmp : α → α → ℚ) (x : α) (l : List α) :
    List.Perm (insertCmp cmp x l) (x :: l) := by
  induction l with
  | nil => simp [insertCmp]
  | cons y ys ih =>
    unfold insertCmp
    split
    · exact List.Perm.refl _
    · exact (ih.cons y).trans (List.Perm.swap x y ys)

lemma jsSortBy_go_perm (cmp : α → α → ℚ) (l acc : List α) :
    List.Perm (l.foldl (fun a x => insertCmp cmp x a) acc) (acc ++ l) := by
  induction l generalizing acc with
  | nil => simp
  | cons x xs ih =>
    simp only [List.foldl_cons]
    refine (ih (insertCmp cmp x acc)).trans ?_
    refine (List.Perm.append_right xs (insertCmp_perm cmp x acc)).trans ?_
    simpa using List.perm_middle.symm

lemma jsSortBy_perm (cmp : α → α → ℚ) (l : List α) :
    List.Perm (jsSortBy cmp l) l := by
  simpa [jsSortBy] using jsSortBy_go_perm cmp l []

lemma mem_jsSortBy {cmp : α → α → ℚ} {l : List α} {x : α} :
    x ∈ jsSortBy cmp l ↔ x ∈ l :=
  (jsSortBy_perm cmp l).mem_iff

lemma mem_insertCmp {cmp : α → α → ℚ} {x y : α} {l : List α} :
    y ∈ insertCmp cmp x l ↔ y = x ∨ y ∈ l := by
  rw [(insertCmp_perm cmp x l).mem_iff]
  simp

lemma pairwise_insertCmp {cmp : α → α → ℚ}
    (hneg : ∀ a b, cmp a b = -(cmp b a))
    (hquasi : ∀ x v w, cmp x v < 0 → cmp v w ≤ 0 → cmp x w ≤ 0)
    {x : α} {l : List α} (h : l.Pairwise (fun a b => cmp a b ≤ 0)) :
    (insertCmp cmp x l).Pairwise (fun a b => cmp a b ≤ 0) := by
  induction l with
  | nil => simp [insertCmp]
  | cons y ys ih =>
    unfold insertCmp
    split
    case isTrue hlt =>
      refine List.Pairwise.cons ?_ h
      intro z hz
      rcases List.mem_cons.mp hz with rfl | hz
      · exact le_of_lt hlt
      · exact hquasi x y z hlt (List.rel_of_pairwise_cons h hz)
    case isFalse hge =>
      refine List.Pairwise.cons ?_ (ih (List.Pairwise.sublist (List.sublist_cons_self y ys) h))
      intro z hz
      rcases mem_insertCmp.mp hz with rfl | hz
      · rw [hneg]
        simp only [neg_nonpos]
        exact le_of_not_lt hge
      · exact List.rel_of_pairwise_cons h hz

lemma pairwise_jsSortBy {cmp : α → α → ℚ}
    (hneg : ∀ a b, cmp a b = -(cmp b a))
    (hquasi : ∀ x v w, cmp x v < 0 → cmp v w ≤ 0 → cmp x w ≤ 0)
    (l : List α) :
    (jsSortBy cmp l).Pairwise (fun a b => cmp a b ≤ 0) := by
  suffices h : ∀ acc : List α, acc.Pairwise (fun a b => cmp a b ≤ 0) →
      (l.foldl (fun a x => insertCmp cmp x a) acc).Pairwise (fun a b => cmp a b ≤ 0) by
    simpa [jsSortBy] using h [] (by simp)
  induction l with
  | nil => intro acc hacc; simpa using hacc
  | cons x xs ih =>
    intro acc hacc
    simp only [List.foldl_cons]
    exact ih _ (pairwise_insertCmp hneg hquasi hacc)

lemma insertCmp_append {cmp : α → α → ℚ} {x : α} {l : List α}
    (h : ∀ y ∈ l, ¬(cmp x y < 0)) :
    insertCmp cmp x l = l ++ [x] := by
  induction l with
  | nil => simp [insertCmp]
  | cons y ys ih =>
    unfold insertCmp
    rw [if_neg (h y (by simp))]
    simp only [List.cons_append, List.cons.injEq, true_and]
    exact ih (fun z hz => h z (by simp [hz]))

lemma jsSortBy_of_pairwise {cmp : α → α → ℚ}
    (hneg : ∀ a b, cmp a b = -(cmp b a))
    {l : List α} (h : l.Pairwise (fun a b => cmp a b ≤ 0)) :
    jsSortBy cmp l = l := by
  induction l using List.reverseRecOn with
  | nil => simp [jsSortBy]
  | append_singleton init x ih =>
    have hsplit := List.pairwise_append.mp h
    have hinit : jsSortBy cmp init = init := ih hsplit.1
    have hstep : jsSortBy cmp (init ++ [x]) = insertCmp cmp x (jsSortBy cmp init) := by
      simp [jsSortBy, List.foldl_append]
    rw [hstep, hinit]
    refine insertCmp_append ?_
    intro y hy
    have hle : cmp y x ≤ 0 := hsplit.2.2 y hy x (by simp)
    rw [hneg] at hle
    exact not_lt.mpr (by linarith)

/-! ## Properties of the two comparators -/

lemma mergeCmp_neg (a b : SearchResult) : mergeCmp a b = -(mergeCmp b a) := by
  unfold mergeCmp
  by_cases hs : a.score.getD 0 = b.score.getD 0
  · simp only [hs, ne_eq, not_true_eq_false, if_false, ite_false]
    cases a.timestamp <;> cases b.timestamp <;> simp <;> push_cast <;> ring
  · simp only [ne_eq, hs, Ne.symm hs, not_false_eq_true, if_true, ite_true]
    ring

lemma mergeCmp_quasi (x v w : SearchResult) (h1 : mergeCmp x v < 0)
    (h2 : mergeCmp v w ≤ 0) : mergeCmp x w ≤ 0 := by
  unfold mergeCmp at h1 h2 ⊢
  rcases eq_or_ne (x.score.getD 0) (v.score.getD 0) with hxv | hxv <;>
    rcases eq_or_ne (v.score.getD 0) (w.score.getD 0) with hvw | hvw
  · rw [if_neg (not_ne_iff.mpr hxv)] at h1
    rw [if_neg (not_ne_iff.mpr hvw)] at h2
    rw [if_neg (not_ne_iff.mpr (hxv.trans hvw))]
    cases hx : x.timestamp <;> rw [hx] at h1 <;>
      cases hv : v.timestamp <;> rw [hv] at h1 <;> rw [hv] at h2 <;>
      cases hw : w.timestamp <;> rw [hw] at h2 <;>
      simp_all <;> omega
  · rw [if_neg (not_ne_iff.mpr hxv)] at h1
    rw [if_pos hvw] at h2
    rw [if_pos (hxv ▸ hvw), hxv]
    linarith
  · rw [if_pos hxv] at h1
    rw [if_neg (not_ne_iff.mpr hvw)] at h2
    rw [if_pos (fun h => hxv (h.trans hvw.symm)), ← hvw]
    linarith
  · rw [if_pos hxv] at h1
    rw [if_pos hvw] at h2
    have hlt : w.score.getD 0 < x.score.getD 0 := by linarith
    rw [if_pos (ne_of_gt hlt)]
    linarith

lemma scoreDescCmp_neg (a b : SearchResult) : scoreDescCmp a b = -(scoreDescCmp b a) := by
  unfold scoreDescCmp; ring

lemma scoreDescCmp_quasi (x v w : SearchResult) (h1 : scoreDescCmp x v < 0)
    (h2 : scoreDescCmp v w ≤ 0) : scoreDescCmp x w ≤ 0 := by
  unfold scoreDescCmp at h1 h2 ⊢
  linarith

/-! ## Lemmas about deduplication -/

lemma jsFindIndex_eq_none_iff {p : α → Bool} {l : List α} :
    jsFindIndex p l = none ↔ ∀ x ∈ l, p x = false := by
  induction l with
  | nil => simp [jsFindIndex]
  | cons y ys ih =>
    unfold jsFindIndex
    by_cases hy : p y <;> simp [hy, ih]

lemma jsFindIndex_spec {p : α → Bool} {l : List α} {i : ℕ} (d : α)
    (h : jsFindIndex p l = some i) :
    i < l.length ∧ p (l.getD i d) = true ∧ ∀ j < i, p (l.getD j d) = false := by
  induction l generalizing i with
  | nil => simp [jsFindIndex] at h
  | cons y ys ih =>
    unfold jsFindIndex at h
    by_cases hy : p y
    · rw [if_pos hy] at h
      obtain rfl : i = 0 := by simpa using h.symm
      simpa using hy
    · rw [if_neg hy] at h
      obtain ⟨i0, hi0, rfl⟩ : ∃ i0, jsFindIndex p ys = some i0 ∧ i = i0 + 1 := by
        cases hys : jsFindIndex p ys <;> simp [hys] at h <;> simp [h.symm]
      obtain ⟨h1, h2, h3⟩ := ih hi0
      refine ⟨by simpa using h1, by simpa using h2, ?_⟩
      intro j hj
      cases j with
      | zero => simpa using hy
      | succ j0 => simpa using h3 j0 (by omega)

/-- URL equality is the first disjunct of the duplicate test. -/
lemma areDuplicates_of_url_eq {a b : SearchResult}
    (h : normalizeUrl a.url = normalizeUrl b.url) : areDuplicates a b = true := by
  unfold areDuplicates
  simp [h]

lemma foldl_dedupStep_of_pairwise :
    ∀ (l acc : List SearchResult),
      (acc ++ l).Pairwise (fun a b => areDuplicates a b = false) →
      l.foldl dedupStep acc = acc ++ l := by
  intro l
  induction l with
  | nil => intro acc _; simp
  | cons r rs ih =>
    intro acc h
    have hsplit := List.pairwise_append.mp h
    have hnone : jsFindIndex (fun e => areDuplicates e r) acc = none := by
      rw [jsFindIndex_eq_none_iff]
      intro e he
      simpa using hsplit.2.2 e he r (by simp)
    have hstep : dedupStep acc r = acc ++ [r] := by
      unfold dedupStep
      rw [hnone]
    simp only [List.foldl_cons, hstep]
    rw [ih (acc ++ [r]) (by simpa using h)]
    simp

lemma deduplicateResults_of_pairwise {l : List SearchResult}
    (h : l.Pairwise (fun a b => areDuplicates a b = false)) :
    deduplicateResults l = l := by
  simpa [deduplicateResults] using foldl_dedupStep_of_pairwise l [] (by simpa using h)

/-- Replacement analysis for `deduplicateResults`: whenever every
duplicate pair among a superset `univ` of the inputs is a URL
duplicate, the accepted list stays pairwise duplicate-free (and inside
`univ`) through the fold.  The first-duplicate scan alone cannot
guarantee this in general, because replacing a survivor can pair it
with a later accepted result; URL-only duplication restores it since
URL equality is transitive. -/
lemma dedup_invariant (univ : List SearchResult)
    (hURL : ∀ a ∈ univ, ∀ b ∈ univ, areDuplicates a b = true →
      normalizeUrl a.url = normalizeUrl b.url) :
    ∀ (l acc : List SearchResult),
      (∀ x ∈ acc, x ∈ univ) → (∀ x ∈ l, x ∈ univ) →
      acc.Pairwise (fun a b => areDuplicates a b = false) →
      (∀ x ∈ l.foldl dedupStep acc, x ∈ univ) ∧
        (l.foldl dedupStep acc).Pairwise (fun a b => areDuplicates a b = false) := by
  intro l
  induction l with
  | nil => intro acc hacc _ hpw; exact ⟨hacc, hpw⟩
  | cons r rs ih =>
    intro acc hacc hl hpw
    simp only [List.foldl_cons]
    have hr : r ∈ univ := hl r (by simp)
    have hrs : ∀ x ∈ rs, x ∈ univ := fun x hx => hl x (by simp [hx])
    rcases hfind : jsFindIndex (fun e => areDuplicates e r) acc with _ | i
    · have hstep : dedupStep acc r = acc ++ [r] := by
        unfold dedupStep; rw [hfind]
      rw [hstep]
      apply ih
      · intro x hx
        rcases List.mem_append.mp hx with hx | hx
        · exact hacc x hx
        · obtain rfl : x = r := by simpa using hx
          exact hr
      · exact hrs
      · rw [List.pairwise_append]
        refine ⟨hpw, by simp, ?_⟩
        intro a ha b hb
        obtain rfl : b = r := by simpa using hb
        exact (jsFindIndex_eq_none_iff.mp hfind) a ha
    · obtain ⟨hilen, hpi, hprev⟩ := jsFindIndex_spec r hfind
      have hcases : dedupStep acc r = acc.set i r ∨ dedupStep acc r = acc := by
        unfold dedupStep
        rw [hfind]
        exact ite_eq_or_eq _ _ _
      rcases hcases with hset | hkeep
      · rw [hset]
        apply ih
        · intro x hx
          rcases List.mem_or_eq_of_mem_set hx with hx | rfl
          · exact hacc x hx
          · exact hr
        · exact hrs
        · rw [List.pairwise_iff_getElem] at hpw ⊢
          intro j k hj hk hjk
          rw [List.length_set] at hj hk
          rw [List.getElem_set, List.getElem_set]
          have hdupir : areDuplicates (acc.getD i r) r = true := by simpa using hpi
          rw [List.getD_eq_getElem acc r hilen] at hdupir
          by_cases hij : i = j
          · subst hij
            rw [if_pos rfl, if_neg (by omega)]
            by_contra hcon
            have hdup : areDuplicates r acc[k] = true := by
              simpa using hcon
            have h1 : normalizeUrl acc[i].url = normalizeUrl r.url :=
              hURL acc[i] (hacc _ (acc.getElem_mem hj)) r hr hdupir
            have h2 : normalizeUrl r.url = normalizeUrl acc[k].url :=
              hURL r hr acc[k] (hacc _ (acc.getElem_mem hk)) hdup
            have h3 : areDuplicates acc[i] acc[k] = true :=
              areDuplicates_of_url_eq (h1.trans h2)
            have h4 : areDuplicates acc[i] acc[k] = false := hpw i k hj hk hjk
            rw [h3] at h4
            simp at h4
          · rw [if_neg hij]
            by_cases hik : i = k
            · subst hik
              rw [if_pos rfl]
              have hjlt : j < i := by omega
              have := hprev j hjlt
              rwa [List.getD_eq_getElem acc r hj] at this
            · rw [if_neg hik]
              exact hpw j k hj hk hjk
      · rw [hkeep]
        exact ih acc hacc hrs hpw

/-! ## Bounds for the scoring tables and the composite formula -/

lemma sourceTrust_bound (s : SourceType) :
    0 < sourceTrustScores s ∧ sourceTrustScores s ≤ 1 := by
  cases s <;> norm_num [sourceTrustScores]

lemma defaultRelevance_bound (s : SourceType) :
    0 ≤ defaultRelevance s ∧ defaultRelevance s ≤ 1 := by
  cases s <;> norm_num [defaultRelevance]

lemma intentSourceRelevance_bound (it : IntentType) (s : SourceType) (q : ℚ)
    (h : intentSourceRelevance it s = some q) : 0 ≤ q ∧ q ≤ 1 := by
  cases it <;> cases s <;> simp_all [intentSourceRelevance] <;> norm_num [← h]

lemma affinity_bound (it : IntentType) (s : SourceType) :
    0 ≤ (intentSourceRelevance it s).getD (defaultRelevance s)
      ∧ (intentSourceRelevance it s).getD (defaultRelevance s) ≤ 1 := by
  cases h : intentSourceRelevance it s with
  | none => simpa using defaultRelevance_bound s
  | some q => simpa using intentSourceRelevance_bound it s q h

lemma jsOrHalf_bound {s : Option ℚ} (h : ∀ v, s = some v → 0 ≤ v ∧ v ≤ 1) :
    0 ≤ jsOrHalf s ∧ jsOrHalf s ≤ 1 := by
  cases s with
  | none => norm_num [jsOrHalf]
  | some v =>
    unfold jsOrHalf
    by_cases hv : v = 0
    · simp [hv]; norm_num
    · simpa [hv] using h v rfl

lemma recencyBonusSpec_bound (now : ℤ) (ts : Option ℤ) :
    0 ≤ recencyBonusSpec now ts ∧ recencyBonusSpec now ts ≤ 1/10 := by
  unfold recencyBonusSpec
  cases ts <;> simp <;> split_ifs <;> norm_num

/-- The code's composite score coincides with the claimed formula once
`baseScore`'s fallback also covers a present zero score (JS `||`). -/
lemma calculateRelevanceScore_eq_amended (now : ℤ) (r : SearchResult) (intent : QueryIntent) :
    calculateRelevanceScore now r intent = relevanceScoreAmendedC7 now r intent := by
  unfold calculateRelevanceScore relevanceScoreAmendedC7 recencyBonusSpec
  rw [if_neg (ne_of_gt (sourceTrust_bound r.source).1)]
  rcases hts : r.timestamp with _ | ts <;> simp only [hts] <;> congr 1 <;> ring

lemma relevanceScoreAmended_bound (now : ℤ) (r : SearchResult) (intent : QueryIntent)
    (hc : 0 ≤ intent.confidence ∧ intent.confidence ≤ 1)
    (hs : ∀ v, r.score = some v → 0 ≤ v ∧ v ≤ 1) :
    0 ≤ relevanceScoreAmendedC7 now r intent ∧ relevanceScoreAmendedC7 now r intent ≤ 1 := by
  obtain ⟨hb0, hb1⟩ := jsOrHalf_bound hs
  obtain ⟨ht0, ht1⟩ := sourceTrust_bound r.source
  obtain ⟨ha0, ha1⟩ := affinity_bound intent.type r.source
  obtain ⟨hr0, hr1⟩ := recencyBonusSpec_bound now r.timestamp
  unfold relevanceScoreAmendedC7
  constructor
  · apply le_min (by norm_num)
    have p1 : 0 ≤ (4/10 : ℚ) * jsOrHalf r.score := mul_nonneg (by norm_num) hb0
    have p2 : 0 ≤ (2/10 : ℚ) * sourceTrustScores r.source :=
      mul_nonneg (by norm_num) (le_of_lt ht0)
    have p3 : 0 ≤ (3/10 : ℚ) * (intentSourceRelevance intent.type r.source).getD
        (defaultRelevance r.source) := mul_nonneg (by norm_num) ha0
    have p4 : 0 ≤ (1/10 : ℚ) * intent.confidence := mul_nonneg (by norm_num) hc.1
    linarith
  · exact min_le_left _ _

lemma calculateRelevanceScore_bound (now : ℤ) (r : SearchResult) (intent : QueryIntent)
    (hc : 0 ≤ intent.confidence ∧ intent.confidence ≤ 1)
    (hs : ∀ v, r.score = some v → 0 ≤ v ∧ v ≤ 1) :
    0 ≤ calculateRelevanceScore now r intent ∧ calculateRelevanceScore now r intent ≤ 1 := by
  rw [calculateRelevanceScore_eq_amended]
  exact relevanceScoreAmended_bound now r intent hc hs

lemma list_sum_bound {l : List ℚ} {c : ℚ} (hc : 0 ≤ c)
    (h : ∀ x ∈ l, 0 ≤ x ∧ x ≤ c) : 0 ≤ l.sum ∧ l.sum ≤ c * l.length := by
  induction l with
  | nil => simp
  | cons x xs ih =>
    obtain ⟨hx0, hxc⟩ := h x (by simp)
    obtain ⟨hs0, hsc⟩ := ih (fun y hy => h y (by simp [hy]))
    constructor
    · simpa using add_nonneg hx0 hs0
    · simp only [List.sum_cons, List.length_cons]
      push_cast
      linarith

lemma localSimilarity_bound (q t : String) :
    0 ≤ localSimilarity q t ∧ localSimilarity q t ≤ 3/2 := by
  unfold localSimilarity
  have hterm : ∀ x ∈ (jsSplitWs q.toLower).map (fun term =>
      (if term ∈ jsSplitWs t.toLower then (1 : ℚ) else 0)
        + (if (jsSplitWs t.toLower).any
            (fun tt => strIncludes tt term || strIncludes term tt)
           then (1/2 : ℚ) else 0)), 0 ≤ x ∧ x ≤ 3/2 := by
    intro x hx
    obtain ⟨term, _, rfl⟩ := List.mem_map.mp hx
    split_ifs <;> norm_num
  obtain ⟨hs0, hsc⟩ := list_sum_bound (by norm_num : (0:ℚ) ≤ 3/2) hterm
  rw [List.length_map] at hsc
  have hd1 : (1 : ℚ) ≤ max ((jsSplitWs q.toLower).length : ℚ) 1 := le_max_right _ _
  have hd0 : (0 : ℚ) < max ((jsSplitWs q.toLower).length : ℚ) 1 := by linarith
  constructor
  · exact div_nonneg hs0 (le_of_lt hd0)
  · rw [div_le_iff hd0]
    calc _ ≤ (3/2 : ℚ) * ((jsSplitWs q.toLower).length : ℚ) := hsc
    _ ≤ _ := by
        have := le_max_left ((jsSplitWs q.toLower).length : ℚ) 1
        nlinarith

lemma mem_rankResults {now : ℤ} {results : List SearchResult} {intent : QueryIntent}
    {r : SearchResult} (h : r ∈ rankResults now results intent) :
    ∃ r0 ∈ results, r = { r0 with score := some (calculateRelevanceScore now r0 intent) } := by
  unfold rankResults at h
  obtain ⟨r0, hr0, rfl⟩ := List.mem_map.mp (mem_jsSortBy.mp h)
  exact ⟨r0, hr0, rfl⟩

lemma mem_rerankWithLocalSimilarity {q : String} {results : List SearchResult}
    {r : SearchResult} (h : r ∈ rerankWithLocalSimilarity q results) :
    ∃ r0 ∈ results, r = { r0 with score := some ((jsOrHalf r0.score) * (1/2)
      + localSimilarity q (r0.title ++ " " ++ r0.description) * (1/2)) } := by
  unfold rerankWithLocalSimilarity at h
  by_cases he : results.isEmpty
  · rw [if_pos he] at h
    rw [List.isEmpty_iff.mp he] at h
    simp at h
  · rw [if_neg he] at h
    obtain ⟨r0, hr0, rfl⟩ := List.mem_map.mp (mem_jsSortBy.mp h)
    exact ⟨r0, hr0, rfl⟩

/-! ## Claim theorems -/

/-- C1 (counterexample): the claimed [0,1] invariant fails after the
always-available local-similarity blend — on a single result whose
title and description both equal the one-word query, the pipeline
produces the score 89/80 > 1 (`localSimilarity` reaches 3/2 and
`rerankWithLocalSimilarity` does not clamp). -/
theorem c1_score_exceeds_one :
    (fullRankingPipelineLocal 0 "a" [cexSimResult] cexIntent).map (fun r => r.score)
      = [some (89/80)] ∧ (1 : ℚ) < 89/80 :=
  ⟨by with_unfolding_all rfl, by norm_num⟩

/-- C1 (amended): with input scores in [0,1] and intent confidence in
[0,1], every score after the first-pass intent ranking lies in [0,1]
(that stage clamps at 1); the 0.5/0.5 local-similarity blend does not
clamp and only guarantees [0, 5/4], because the lexical similarity can
reach 3/2. -/
theorem c1_score_bounds_amended (now : ℤ) (query : String)
    (results : List SearchResult) (intent : QueryIntent)
    (hconf : 0 ≤ intent.confidence ∧ intent.confidence ≤ 1)
    (hin : ∀ r ∈ results, ∀ v, r.score = some v → 0 ≤ v ∧ v ≤ 1) :
    (∀ r ∈ rankResults now results intent, ∀ v, r.score = some v → 0 ≤ v ∧ v ≤ 1)
      ∧ (∀ r ∈ fullRankingPipelineLocal now query results intent, ∀ v,
          r.score = some v → 0 ≤ v ∧ v ≤ 5/4) := by
  have hrank : ∀ r ∈ rankResults now results intent, ∀ v,
      r.score = some v → 0 ≤ v ∧ v ≤ 1 := by
    intro r hr v hv
    obtain ⟨r0, hr0, rfl⟩ := mem_rankResults hr
    obtain rfl : v = calculateRelevanceScore now r0 intent := by simpa using hv.symm
    exact calculateRelevanceScore_bound now r0 intent hconf (fun w hw => hin r0 hr0 w hw)
  refine ⟨hrank, ?_⟩
  intro r hr v hv
  unfold fullRankingPipelineLocal at hr
  by_cases he : results.isEmpty
  · rw [if_pos he] at hr
    rw [List.isEmpty_iff.mp he] at hr
    simp at hr
  · rw [if_neg he] at hr
    obtain ⟨r0, hr0, rfl⟩ := mem_rerankWithLocalSimilarity hr
    obtain rfl : v = (jsOrHalf r0.score) * (1/2)
        + localSimilarity query (r0.title ++ " " ++ r0.description) * (1/2) := by
      simpa using hv.symm
    obtain ⟨hp0, hp1⟩ := jsOrHalf_bound (fun w hw => hrank r0 hr0 w hw)
    obtain ⟨hs0, hs1⟩ :=
      localSimilarity_bound query (r0.title ++ " " ++ r0.description)
    constructor <;> nlinarith

/-- C1 (witness): the amended bound applied to one concrete ranked
result. -/
theorem c1_score_bounds_witness :
    (∀ r ∈ rankResults 0 [cexA] cexIntent, ∀ v, r.score = some v → 0 ≤ v ∧ v ≤ 1)
      ∧ (∀ r ∈ fullRankingPipelineLocal 0 "a" [cexA] cexIntent, ∀ v,
          r.score = some v → 0 ≤ v ∧ v ≤ 5/4) :=
  c1_score_bounds_amended 0 "a" [cexA] cexIntent
    ⟨by norm_num [cexIntent], by norm_num [cexIntent]⟩
    (by
      intro r hr v hv
      obtain rfl : r = cexA := by simpa using hr
      obtain rfl : v = 1/2 := by simpa [cexA] using hv.symm
      norm_num)

/-- C2 (code bug): on the IPv4 literal `"1.2.3.4"` the classifier's IP
branch fires (`isIPAddress` true, `isDomain` false) yet returns intent
type `domain` with confidence 0.95 — while selecting the `ip` entry of
the source map — where the claim (and the spec) require type `ip` with
confidence 0.98. -/
theorem c2_ip_literal_code_bug :
    classifyIntentLocal "1.2.3.4"
        = ⟨.domain, 95/100, ["1.2.3.4"], [.whois]⟩
      ∧ isIPAddress "1.2.3.4" = true
      ∧ isDomain "1.2.3.4" = false
      ∧ IntentType.domain ≠ IntentType.ip :=
  ⟨by with_unfolding_all rfl, by with_unfolding_all rfl,
   by with_unfolding_all rfl, by simp⟩

/-- C7 (counterexample): a result whose source-reported score is
present but zero — the claimed formula keeps baseScore 0, the code's
`||` fallback replaces it with 0.5, so the two disagree (11/20 versus
7/20). -/
theorem c7_zero_score_default_cex :
    calculateRelevanceScore 0 cexZeroScore cexIntent = 11/20
      ∧ relevanceScoreClaimC7 0 cexZeroScore cexIntent = 7/20
      ∧ (11/20 : ℚ) ≠ 7/20 :=
  ⟨by with_unfolding_all rfl, by with_unfolding_all rfl, by norm_num⟩

/-- C7 (amended): the first-pass composite score equals
min(1, 0.4·baseScore + 0.2·sourceTrust + 0.3·intentSourceAffinity +
0.1·confidence + recencyBonus), with baseScore defaulting to 0.5 when
the source-reported score is absent **or zero** (JS `||` truthiness);
the recency bonus is 0.1/0.05/0.02/0 by age as claimed. -/
theorem c7_composite_formula_amended (now : ℤ) (r : SearchResult) (intent : QueryIntent) :
    calculateRelevanceScore now r intent = relevanceScoreAmendedC7 now r intent :=
  calculateRelevanceScore_eq_amended now r intent

/-- C3 (counterexample): merge is not idempotent on its own output.
With three same-source results whose title overlaps are A~B (9/10),
B~C (9/10) but A~C only 8/10, the higher-scoring B replaces A at A's
slot after C was already accepted, leaving the duplicates B and C in
the output; a second merge removes C. -/
theorem c3_merge_not_idempotent :
    mergeResults [[cexA, cexC3C, cexB]] = [cexB, cexC3C]
      ∧ mergeResults [mergeResults [[cexA, cexC3C, cexB]]] = [cexB]
      ∧ mergeResults [mergeResults [[cexA, cexC3C, cexB]]]
          ≠ mergeResults [[cexA, cexC3C, cexB]] :=
  ⟨by with_unfolding_all rfl, by with_unfolding_all rfl,
   by with_unfolding_all decide⟩

/-- C3 (amended): merge is idempotent on its own output whenever that
output is pairwise duplicate-free — re-merging then removes nothing and
re-sorting an already-sorted list is the identity.  (The unrestricted
claim fails because a replacement can leave a duplicate pair in the
output, as the counterexample shows.) -/
theorem c3_merge_idempotent_amended (ls : List (List SearchResult))
    (h : (mergeResults ls).Pairwise (fun a b => areDuplicates a b = false)) :
    mergeResults [mergeResults ls] = mergeResults ls := by
  have hpair : (mergeResults ls).Pairwise (fun a b => mergeCmp a b ≤ 0) :=
    pairwise_jsSortBy mergeCmp_neg mergeCmp_quasi _
  calc mergeResults [mergeResults ls]
      = jsSortBy mergeCmp (deduplicateResults (mergeResults ls)) := by
        simp [mergeResults]
    _ = jsSortBy mergeCmp (mergeResults ls) := by
        rw [deduplicateResults_of_pairwise h]
    _ = mergeResults ls := jsSortBy_of_pairwise mergeCmp_neg hpair

/-- C3 (witness): the amended idempotence applied to a concrete
duplicate-free merge output. -/
theorem c3_merge_idempotent_witness :
    mergeResults [mergeResults [[cexA, cexC4C]]] = mergeResults [[cexA, cexC4C]] :=
  c3_merge_idempotent_amended [[cexA, cexC4C]] (by with_unfolding_all decide)

/-- C4 (counterexample): two results with identical normalized URLs
both survive merge.  B is a title-duplicate of A and replaces it at
A's already-scanned slot, so B is never compared against the
previously accepted C, which shares its normalized URL. -/
theorem c4_url_collision :
    mergeResults [[cexA, cexC4C, cexB]] = [cexB, cexC4C]
      ∧ normalizeUrl cexB.url = normalizeUrl cexC4C.url
      ∧ cexB ≠ cexC4C :=
  ⟨by with_unfolding_all rfl, by with_unfolding_all rfl,
   by with_unfolding_all decide⟩

/-- C4 (amended): if every duplicate pair among the flattened input is
a URL duplicate (no title-based duplicates), then merge's output never
contains two results with equal normalized URLs.  In general a
title-based replacement can introduce a URL collision, as the
counterexample shows. -/
theorem c4_url_collapse_amended (ls : List (List SearchResult))
    (h : ∀ a ∈ ls.flatten, ∀ b ∈ ls.flatten, areDuplicates a b = true →
      normalizeUrl a.url = normalizeUrl b.url) :
    (mergeResults ls).Pairwise (fun a b => normalizeUrl a.url ≠ normalizeUrl b.url) := by
  have hnond : (deduplicateResults ls.flatten).Pairwise
      (fun a b => areDuplicates a b = false) :=
    (dedup_invariant ls.flatten h ls.flatten [] (by simp) (fun x hx => hx) (by simp)).2
  have hperm := jsSortBy_perm mergeCmp (deduplicateResults ls.flatten)
  unfold mergeResults
  rw [List.Perm.pairwise_iff (fun {a b} hab hba => hab hba.symm) hperm]
  refine hnond.imp ?_
  intro a b hab hurl
  rw [areDuplicates_of_url_eq hurl] at hab
  simp at hab

/-- C4 (witness): the amended statement applied to a concrete input
whose only duplicates are URL duplicates. -/
theorem c4_url_collapse_witness :
    (mergeResults [[cexNoTs, cexWithTs]]).Pairwise
      (fun a b => normalizeUrl a.url ≠ normalizeUrl b.url) :=
  c4_url_collapse_amended [[cexNoTs, cexWithTs]] (by with_unfolding_all decide)

/-- C6 (counterexample): at equal scores a result with no timestamp
does not sort after one with a timestamp — the comparator returns 0
whenever either timestamp is missing, so the pair keeps its
deduplication order with the timestamp-free result first. -/
theorem c6_missing_timestamp_order_cex :
    mergeResults [[cexNoTs, cexWithTs]] = [cexNoTs, cexWithTs]
      ∧ cexNoTs.timestamp = none
      ∧ cexWithTs.timestamp = some 100
      ∧ cexNoTs.score = cexWithTs.score
      ∧ mergeResults [[cexNoTs, cexWithTs]] ≠ [cexWithTs, cexNoTs] :=
  ⟨by with_unfolding_all rfl, by with_unfolding_all rfl, by with_unfolding_all rfl,
   by with_unfolding_all rfl, by with_unfolding_all decide⟩

/-- C6 (amended): merge's output is sorted by score descending
(`?? 0`), and among results of equal score a newer timestamp precedes
an older one whenever **both** timestamps are present; ties where a
timestamp is missing carry no ordering guarantee (they keep their
pre-sort order). -/
theorem c6_sort_order_amended (ls : List (List SearchResult)) :
    (mergeResults ls).Pairwise (fun a b =>
      b.score.getD 0 ≤ a.score.getD 0
        ∧ (a.score.getD 0 = b.score.getD 0 →
            ∀ ta tb, a.timestamp = some ta → b.timestamp = some tb → tb ≤ ta)) := by
  have h : (mergeResults ls).Pairwise (fun a b => mergeCmp a b ≤ 0) :=
    pairwise_jsSortBy mergeCmp_neg mergeCmp_quasi _
  refine h.imp ?_
  intro a b hab
  unfold mergeCmp at hab
  by_cases hs : a.score.getD 0 = b.score.getD 0
  · rw [if_neg (not_ne_iff.mpr hs)] at hab
    refine ⟨le_of_eq hs.symm, fun _ ta tb hta htb => ?_⟩
    rw [hta, htb] at hab
    simp at hab
    omega
  · rw [if_pos hs] at hab
    exact ⟨by linarith, fun heq => absurd heq hs⟩

/-- C6 (witness): the amended ordering property on a concrete merge. -/
theorem c6_sort_order_witness :
    (mergeResults [[cexA, cexC3C, cexB]]).Pairwise (fun a b =>
      b.score.getD 0 ≤ a.score.getD 0
        ∧ (a.score.getD 0 = b.score.getD 0 →
            ∀ ta tb, a.timestamp = some ta → b.timestamp = some tb → tb ≤ ta)) :=
  c6_sort_order_amended [[cexA, cexC3C, cexB]]

/-- C5 (counterexample): on the query `"npm"` the best per-category
score is 1/4 (one of four tech patterns), which exceeds the claimed
0.2 threshold, yet the classifier falls back to `general` with
confidence 0.5 — the code's threshold is 0.3, not 0.2. -/
theorem c5_keyword_threshold_cex :
    sortedIntents "npm" = [(.tech, 1/4)]
      ∧ (1/5 : ℚ) < 1/4
      ∧ classifyIntentLocal "npm" = generalIntentResult
      ∧ generalIntentResult.type = IntentType.general
      ∧ generalIntentResult.confidence = 1/2
      ∧ generalIntentResult.confidence ≠ min (1/4 + 3/10) (9/10) :=
  ⟨by with_unfolding_all rfl, by norm_num, by with_unfolding_all rfl,
   rfl, rfl, by with_unfolding_all decide⟩

/-- C5 (amended): for every query reaching the keyword-scoring
fallback, if the best per-category score exceeds **0.3** the returned
intent is that category with confidence min(score + 0.3, 0.9) and no
entities; otherwise (including when no pattern matches at all) the
classifier returns `general` with confidence 0.5 and no entities. -/
theorem c5_keyword_threshold_amended (q : String)
    (h1 : isDomain q = false) (h2 : isIPAddress q = false)
    (h3 : cveMatch q = none) :
    (sortedIntents q = [] → classifyIntentLocal q = generalIntentResult)
      ∧ ∀ t sc rest, sortedIntents q = (t, sc) :: rest →
          ((3/10 : ℚ) < sc → classifyIntentLocal q
              = ⟨t, min (sc + 3/10) (9/10), [],
                  match intentSourceMap t with
                  | some l => l
                  | none => intentSourceMapGet .general⟩)
            ∧ (sc ≤ 3/10 → classifyIntentLocal q = generalIntentResult) := by
  unfold classifyIntentLocal
  rw [h1, h2, h3]
  simp only [Bool.false_eq_true, if_false, ite_false]
  constructor
  · intro hnil
    rw [hnil]
  · intro t sc rest heq
    rw [heq]
    constructor
    · intro hgt
      simp only [if_pos hgt]
    · intro hle
      simp only [if_neg (not_lt.mpr hle)]

/-- C5 (witness): the amended fallback applied to the concrete query
`"npm"`, whose best score 1/4 is below the 0.3 threshold. -/
theorem c5_keyword_threshold_witness :
    classifyIntentLocal "npm" = generalIntentResult :=
  ((c5_keyword_threshold_amended "npm" (by with_unfolding_all rfl)
      (by with_unfolding_all rfl) (by with_unfolding_all rfl)).2
    .tech (1/4) [] (by with_unfolding_all rfl)).2 (by norm_num)

/-- C10: the local classifier is total (it is a Lean function) and on
every input returns confidence within [1/2, 49/50] — hence within
[0, 1] — and a non-empty recommended-source list, on every return path
including the `general` fallback. -/
theorem c10_classifier_total_bounds (q : String) :
    ((1/2 : ℚ) ≤ (classifyIntentLocal q).confidence
        ∧ (classifyIntentLocal q).confidence ≤ 49/50)
      ∧ (classifyIntentLocal q).suggestedSources ≠ [] := by
  unfold classifyIntentLocal
  by_cases h1 : isDomain q = true
  · simp only [h1, if_true, ite_true]
    exact ⟨⟨by norm_num, by norm_num⟩, by simp [intentSourceMapGet, intentSourceMap]⟩
  · simp only [h1, if_false, ite_false]
    by_cases h2 : isIPAddress q = true
    · simp only [h2, if_true, ite_true]
      exact ⟨⟨by norm_num, by norm_num⟩, by simp [intentSourceMapGet, intentSourceMap]⟩
    · simp only [h2, if_false, ite_false]
      cases hm : cveMatch q with
      | some m =>
        exact ⟨⟨by norm_num, by norm_num⟩, by simp [intentSourceMapGet, intentSourceMap]⟩
      | none =>
        cases hs : sortedIntents q with
        | nil =>
          exact ⟨⟨by norm_num [generalIntentResult], by norm_num [generalIntentResult]⟩,
            by simp [generalIntentResult, intentSourceMapGet, intentSourceMap]⟩
        | cons p rest =>
          obtain ⟨t, sc⟩ := p
          by_cases hgt : (3/10 : ℚ) < sc
          · simp only [if_pos hgt]
            refine ⟨⟨le_min (by linarith) (by norm_num),
              le_trans (min_le_right _ _) (by norm_num)⟩, ?_⟩
            cases t <;> simp [intentSourceMap, intentSourceMapGet]
          · simp only [if_neg hgt]
            exact ⟨⟨by norm_num [generalIntentResult], by norm_num [generalIntentResult]⟩,
              by simp [generalIntentResult, intentSourceMapGet, intentSourceMap]⟩

/-- C8: when every resolved adapter invocation fails (times out or
throws), `searchAll` still returns a value — the model is a total
function, mirroring the catch-all wrappers — with an empty result
list, zero sources succeeded, and sourcesQueried equal to the number
of enabled adapters invoked. -/
theorem c8_total_failure_resolves (sources : Option (List String))
    (categories : List CategoryType) (limit : ℕ) (outcomes : String → AdapterOutcome)
    (h : ∀ s ∈ resolveSourcesToQuery sources categories,
      outcomes s = .timeout ∨ outcomes s = .throws) :
    (searchAllModel sources categories limit outcomes).results = []
      ∧ (searchAllModel sources categories limit outcomes).sourcesSucceeded = 0
      ∧ (searchAllModel sources categories limit outcomes).sourcesQueried
          = (resolveSourcesToQuery sources categories).length := by
  have hnil : ((parallelFetchModel ((resolveSourcesToQuery sources categories).map
      (fun s => (s, outcomes s)))).filterMap (fun fr =>
        match fr.data with
        | some l => if l.length > 0 then some l else none
        | none => none)) = [] := by
    rw [List.filterMap_eq_nil]
    intro fr hfr
    unfold parallelFetchModel at hfr
    obtain ⟨p, hp, rfl⟩ := List.mem_map.mp hfr
    obtain ⟨s, hs, rfl⟩ := List.mem_map.mp hp
    rcases h s hs with h1 | h1 <;> rw [h1] <;> rfl
  unfold searchAllModel
  simp only [hnil]
  refine ⟨?_, ?_, ?_⟩ <;> simp [show mergeResults [] = [] from rfl]

/-- C8 (witness): the total-failure scenario on one concrete enabled
source with every outcome a timeout. -/
theorem c8_total_failure_witness :
    (searchAllModel (some ["wikipedia"]) [.all] 10 (fun _ => .timeout)).results = []
      ∧ (searchAllModel (some ["wikipedia"]) [.all] 10 (fun _ => .timeout)).sourcesSucceeded = 0
      ∧ (searchAllModel (some ["wikipedia"]) [.all] 10 (fun _ => .timeout)).sourcesQueried
          = (resolveSourcesToQuery (some ["wikipedia"]) [.all]).length :=
  c8_total_failure_resolves (some ["wikipedia"]) [.all] 10 (fun _ => .timeout)
    (fun _ _ => Or.inl rfl)

/-- C9 (counterexample): a request naming only an unknown source
identifier is not rejected — the handler's sole bad-request gate is a
missing/empty query, and `searchAllSources` silently filters the
unknown name out of the queried set (it resolves to no sources at
all). -/
theorem c9_unknown_source_silently_dropped :
    routeGETModel (some "test") (some ["nosuchsource"]) [.all] 30 (fun _ => .returns [])
        ≠ .badRequest
      ∧ resolveSourcesToQuery (some ["nosuchsource"]) [.all] = [] :=
  ⟨by with_unfolding_all decide, by with_unfolding_all rfl⟩

/-- C9 (amended): the GET handler rejects as bad request exactly the
requests with a missing or (after trim) empty query; a request naming
unknown or disabled source identifiers is not rejected — the resolved
query set retains only registered, enabled adapters, silently dropping
everything else. -/
theorem c9_bad_request_amended :
    (∀ (q : Option String) (sources : Option (List String))
        (categories : List CategoryType) (limit : ℕ)
        (outcomes : String → AdapterOutcome),
      routeGETModel q sources categories limit outcomes = .badRequest
        ↔ q = none ∨ ∃ s, q = some s ∧ s.trim = "")
      ∧ (∀ (sources : Option (List String)) (categories : List CategoryType)
          (s : String), s ∈ resolveSourcesToQuery sources categories →
            adapterEnabled s = some true) := by
  constructor
  · intro q sources categories limit outcomes
    cases q with
    | none => simp [routeGETModel]
    | some s =>
      by_cases hs : s.trim = "" <;> simp [routeGETModel, hs]
  · intro sources categories s hs
    simp only [resolveSourcesToQuery, List.mem_filter] at hs
    cases h : adapterEnabled s with
    | none => rw [h] at hs; simp at hs
    | some b =>
      rw [h] at hs
      obtain rfl : b = true := by simpa using hs.2
      rfl

/-- C9 (witness): the amended gate on concrete requests — a missing
query is rejected, and a registered source resolves as enabled. -/
theorem c9_bad_request_witness :
    routeGETModel none (some ["wikipedia"]) [.all] 10 (fun _ => .timeout) = .badRequest
      ∧ adapterEnabled "wikipedia" = some true :=
  ⟨(c9_bad_request_amended.1 none (some ["wikipedia"]) [.all] 10
      (fun _ => .timeout)).mpr (Or.inl rfl),
   c9_bad_request_amended.2 (some ["wikipedia"]) [.all] "wikipedia"
     (by with_unfolding_all decide)⟩
